import Mathlib

/-!
Verification of the cell-toolbar synchronization core of
`jlab-enhanced-cell-toolbar` (src/celltoolbartracker.ts), as a shallow
embedding.  TypeScript classes become Lean structures, the mutable fields
of `CellToolbarTracker` become a state record threaded explicitly, the
Lumino widget tree of a notebook panel becomes a list of cells each
holding a list of widgets, and JavaScript `null`/`undefined` becomes
`Option`.  Signal connections are modelled as boolean flags plus a step
relation delivering events only while the corresponding flag is set.
-/

/-- Menu item description (`ICellMenuItem` from src/tokens.ts): a command
identifier, an icon reference (modelled by its name), an optional tooltip
and an optional cell-type restriction. -/
structure ICellMenuItem where
  command : String
  icon : String
  tooltip : Option String := none
  cellType : Option String := none
deriving DecidableEq, Repr

/-- `DEFAULT_LEFT_MENU` from src/celltoolbartracker.ts lines 25-49. -/
def DEFAULT_LEFT_MENU : List ICellMenuItem :=
  [{ cellType := some "markdown",
     command := "notebook:change-cell-to-code",
     icon := "codeIcon" },
   { cellType := some "code",
     command := "notebook:change-cell-to-markdown",
     icon := "markdownIcon" },
   { cellType := some "code",
     command := "jupyterlab_code_formatter:format",
     icon := "formatIcon",
     tooltip := some "Format Cell" },
   { command := "notebook:delete-cell",
     icon := "deleteIcon" }]

/-- `POSITIONED_BUTTONS` from src/celltoolbartracker.ts lines 51-69. -/
def POSITIONED_BUTTONS : List ICellMenuItem :=
  [{ command := "notebook:run-cell-and-select-next", icon := "runIcon" },
   { command := "notebook:move-cell-up", icon := "caretUpEmptyThinIcon" },
   { command := "notebook:move-cell-down", icon := "caretDownEmptyThinIcon" },
   { command := "notebook:insert-cell-below", icon := "addIcon" }]

/-- `CELL_BAR_CLASS` from src/celltoolbartracker.ts line 74. -/
def CELL_BAR_CLASS : String := "jp-enh-cell-bar"

/-- The settings `composite` object read by `_onSettingsChanged` and
`_addToolbar`.  Each key may be `null` or absent, which both map
to `none` (the code only discriminates null-vs-present via JS truthiness). -/
structure Composite where
  leftMenu : Option (List ICellMenuItem) := none
  rightMenu : Option (List ICellMenuItem) := none
  defaultTags : Option (List String) := none
  leftSpace : Option Nat := none
deriving DecidableEq, Repr

/-- Left-menu part of `_onSettingsChanged` (lines 186-201): clear the
observable list when non-empty, then push the configured items if the
setting is a non-empty array, or `DEFAULT_LEFT_MENU` when it is null.
Takes the current list contents, returns the new contents. -/
def updateLeftMenuItems (cur : List ICellMenuItem)
    (leftItems : Option (List ICellMenuItem)) : List ICellMenuItem :=
  let cur1 := if cur.length > 0 then [] else cur
  match leftItems with
  | some items => if items.length > 0 then cur1 ++ items else cur1
  | none => cur1 ++ DEFAULT_LEFT_MENU

/-- Right-menu part of `_onSettingsChanged` (lines 202-210): the code reads
`(composite['rightMenu'] || []) as ICellMenuItem[]`, so a null value is
coalesced to the empty array before the clear-then-push logic runs. -/
def updateRightMenuItems (cur : List ICellMenuItem)
    (rightMenu : Option (List ICellMenuItem)) : List ICellMenuItem :=
  let rightItems := rightMenu.getD []
  let cur1 := if cur.length > 0 then [] else cur
  if rightItems.length > 0 then cur1 ++ rightItems else cur1

/-- `ObservableList.removeValue` removes the first occurrence of the value
from the list (a no-op when absent). -/
def removeValue (l : List String) (v : String) : List String := l.erase v

/-- Tag part of `_onSettingsChanged` (lines 212-225): push the tags that are
in the new default-tag list but not in `_previousDefaultTags`, remove by
value the tags that are in the previous list but not in the new one, and
record the new list as previous.  Returns the new `_allTags` contents and
the new `_previousDefaultTags`. -/
def updateTags (allTags prev newDefaultTags : List String) :
    List String × List String :=
  let toAdd := newDefaultTags.filter (fun tag => ! prev.contains tag)
  let allTags1 := if toAdd.length > 0 then allTags ++ toAdd else allTags
  let toRemove := prev.filter (fun tag => ! newDefaultTags.contains tag)
  (toRemove.foldl removeValue allTags1, newDefaultTags)

/-- The mutable state of a `CellToolbarTracker` (fields of the class,
lines 236-247), plus booleans recording the signal connections made in the
constructor and removed in `dispose`, and whether `_panel` is non-null. -/
structure CellToolbarTracker where
  _isDisposed : Bool
  _settings : Option Composite
  settingsConnected : Bool
  cellsConnected : Bool
  _panelRef : Bool
  _allTags : List String
  _leftMenuItems : List ICellMenuItem
  _rightMenuItems : List ICellMenuItem
  _previousDefaultTags : List String
deriving DecidableEq, Repr

/-- Body of `_onSettingsChanged` (lines 186-234) given the composite it
dereferences.  The final left-space DOM update (lines 227-233) touches only
CSS widths and is not modelled. -/
def _onSettingsChangedCore (st : CellToolbarTracker) (comp : Composite) :
    CellToolbarTracker :=
  let tags := updateTags st._allTags st._previousDefaultTags
    (comp.defaultTags.getD [])
  { st with
    _leftMenuItems := updateLeftMenuItems st._leftMenuItems comp.leftMenu,
    _rightMenuItems := updateRightMenuItems st._rightMenuItems comp.rightMenu,
    _allTags := tags.1,
    _previousDefaultTags := tags.2 }

/-- `_onSettingsChanged` as called through the signal: it dereferences
`this._settings.composite` without a null guard (line 188), so the call
fails (`none`) when `_settings` is null. -/
def _onSettingsChanged (st : CellToolbarTracker) : Option CellToolbarTracker :=
  match st._settings with
  | none => none
  | some comp => some (_onSettingsChangedCore st comp)

/-- Field state right after the assignments at the top of the constructor
(lines 85-87). -/
def initialFields (settings : Option Composite) : CellToolbarTracker :=
  { _isDisposed := false
    _settings := settings
    settingsConnected := false
    cellsConnected := false
    _panelRef := true
    _allTags := []
    _leftMenuItems := []
    _rightMenuItems := []
    _previousDefaultTags := [] }

/-- The constructor (lines 80-96): if a settings source is present, run
`_onSettingsChanged` once and connect to the settings change signal; always
connect to the cell-list change signal. -/
def constructTracker (settings : Option Composite) : CellToolbarTracker :=
  let st := initialFields settings
  let st1 := match settings with
    | some comp =>
      { _onSettingsChangedCore st comp with settingsConnected := true }
    | none => st
  { st1 with cellsConnected := true }

/-- `dispose` (lines 102-115): return immediately when already disposed;
otherwise set the flag, disconnect the settings signal when a settings
source is present, disconnect the cell-list signal, and null the panel
reference.  No widget is destroyed here. -/
def dispose (st : CellToolbarTracker) : CellToolbarTracker :=
  if st._isDisposed then st
  else
    { st with
      _isDisposed := true,
      settingsConnected :=
        if st._settings.isSome then false else st.settingsConnected,
      cellsConnected := false,
      _panelRef := false }

/-- A widget attached to a cell's `PanelLayout`.  `cellToolbar` is a
`CellToolbarWidget` recorded with its constructor arguments (lines 134-141);
`posButton` is a `PositionedButton`; `content` stands for the cell's own
content widgets.  `classes` are the CSS classes added with `addClass`. -/
inductive Widget
  | cellToolbar (model : Nat) (allTags : List String)
      (leftItems rightItems : List ICellMenuItem) (leftSpace : Nat)
      (classes : List String)
  | posButton (command : String) (classes : List String)
  | content
deriving DecidableEq, Repr

/-- `widget.hasClass c`. -/
def Widget.hasClass : Widget → String → Bool
  | .cellToolbar _ _ _ _ _ cs, c => cs.contains c
  | .posButton _ cs, c => cs.contains c
  | .content, _ => false

/-- Whether the widget carries `CELL_BAR_CLASS` (the filter used by
`_findToolbarWidgets`, line 173). -/
def Widget.isBar (w : Widget) : Bool := w.hasClass CELL_BAR_CLASS

/-- Whether the widget is a `CellToolbarWidget` (a Toolbar Instance). -/
def Widget.isCellToolbar : Widget → Bool
  | .cellToolbar .. => true
  | _ => false

/-- The cell model a Toolbar Instance was constructed for. -/
def Widget.toolbarModel : Widget → Option Nat
  | .cellToolbar m _ _ _ _ _ => some m
  | _ => none

/-- The left-menu items a Toolbar Instance was constructed with. -/
def Widget.toolbarLeftItems : Widget → Option (List ICellMenuItem)
  | .cellToolbar _ _ l _ _ _ => some l
  | _ => none

/-- A rendered cell in `panel.content.widgets`: its model (by identity,
modelled as a numeric id) and the widgets of its `PanelLayout`. -/
structure NbCell where
  model : Nat
  widgets : List Widget
deriving DecidableEq, Repr

/-- `_getCell` (lines 165-167): find the rendered cell whose model is
identical to the given model, `none` when there is no match. -/
def _getCell (panel : List NbCell) (model : Nat) : Option NbCell :=
  panel.find? (fun c => c.model == model)

/-- The `CellToolbarWidget` built by `_addToolbar` (lines 134-142) from the
tracker state: shared tag/menu lists, the `leftSpace` setting (0 when the
settings source is null or the key absent), and `CELL_BAR_CLASS`. -/
def mkToolbar (st : CellToolbarTracker) (model : Nat) : Widget :=
  Widget.cellToolbar model st._allTags st._leftMenuItems st._rightMenuItems
    ((st._settings.bind (fun c => c.leftSpace)).getD 0) [CELL_BAR_CLASS]

/-- The `PositionedButton`s built by `_addToolbar` (lines 145-161): one per
`POSITIONED_BUTTONS` entry whose command is registered, with the short-name
class, `CELL_BAR_CLASS` and the cell-type class. -/
def mkButtons (commands : List String) : List Widget :=
  (POSITIONED_BUTTONS.filter (fun e => commands.contains e.command)).map
    (fun e => Widget.posButton e.command
      ["jp-enh-cell-" ++ ((e.command.splitOn ":").getD 1 ""),
       CELL_BAR_CLASS,
       "jp-enh-cell-" ++ e.cellType.getD "all"])

/-- `_addToolbar` (lines 131-163) acting on the panel widget list: find the
rendered cell for the model (no-op when absent), insert the toolbar at
index 0 of its layout and append the positioned buttons. -/
def _addToolbarP (st : CellToolbarTracker) (commands : List String)
    (model : Nat) : List NbCell → List NbCell
  | [] => []
  | c :: rest =>
    if c.model == model then
      { c with widgets := mkToolbar st model :: (c.widgets ++ mkButtons commands) }
        :: rest
    else c :: _addToolbarP st commands model rest

/-- `_removeToolbar` (lines 176-181) acting on the panel widget list: find
the rendered cell for the model (no-op when absent) and dispose every
widget of its layout carrying `CELL_BAR_CLASS` (disposal detaches a widget
from its parent layout). -/
def _removeToolbarP (model : Nat) : List NbCell → List NbCell
  | [] => []
  | c :: rest =>
    if c.model == model then
      { c with widgets := c.widgets.filter (fun w => ! w.isBar) } :: rest
    else c :: _removeToolbarP model rest

/-- The payload of a cell-list `changed` signal: the removed models and the
added models. -/
structure IChangedArgs where
  oldValues : List Nat
  newValues : List Nat
deriving DecidableEq, Repr

/-- `updateConnectedCells` (lines 123-129): remove the toolbars of every
removed model, then add a toolbar for every added model. -/
def updateConnectedCells (st : CellToolbarTracker) (commands : List String)
    (changed : IChangedArgs) (panel : List NbCell) : List NbCell :=
  changed.newValues.foldl (fun p m => _addToolbarP st commands m p)
    (changed.oldValues.foldl (fun p m => _removeToolbarP m p) panel)

/-- The host notebook state: the cell list of the document model and the
rendered widget list of the panel. -/
structure NBState where
  cells : List Nat
  panel : List NbCell
deriving DecidableEq, Repr

/-- A freshly rendered cell widget, before the tracker decorates it. -/
def freshCell (m : Nat) : NbCell := { model := m, widgets := [Widget.content] }

/-- The host's handling of a cell-list change, per spec sections 4.4 and 6
(the host is an external collaborator): the notebook removes the cells of
the removed models from the document and the panel (disposing their
widgets) and renders one fresh cell widget per added model, before the
tracker's handler — connected after the notebook's own — observes the
event. -/
def hostStep (s : NBState) (ev : IChangedArgs) : NBState :=
  { cells := s.cells.filter (fun m => ! ev.oldValues.contains m)
      ++ ev.newValues,
    panel := s.panel.filter (fun c => ! ev.oldValues.contains c.model)
      ++ ev.newValues.map freshCell }

/-- One fully processed cell-list change event: the host updates the
document and the panel, then the tracker's `updateConnectedCells` runs. -/
def fullStep (st : CellToolbarTracker) (commands : List String)
    (s : NBState) (ev : IChangedArgs) : NBState :=
  let s1 := hostStep s ev
  { s1 with panel := updateConnectedCells st commands ev s1.panel }

/-- Processing a sequence of cell-list change events. -/
def processAll (st : CellToolbarTracker) (commands : List String)
    (s : NBState) (evs : List IChangedArgs) : NBState :=
  evs.foldl (fullStep st commands) s

/-- The cell carries exactly one Toolbar Instance, and it was constructed
for this cell's model. -/
def oneToolbar (c : NbCell) : Prop :=
  (c.widgets.filter Widget.isCellToolbar).length = 1 ∧
  ∀ w ∈ c.widgets, w.isCellToolbar = true → w.toolbarModel = some c.model

/-- One-to-one correspondence between live Toolbar Instances and live
cells: the rendered cells are exactly the live cells (no duplicates), and
each carries exactly one Toolbar Instance built for its own model. -/
def Synced (s : NBState) : Prop :=
  s.panel.map NbCell.model = s.cells ∧ s.cells.Nodup ∧
  ∀ c ∈ s.panel, oneToolbar c

/-- Well-formedness of one cell-list change event: the host adds distinct
fresh cells (a model in `newValues` that already lives in the document is
being moved, i.e. it is also in `oldValues`). -/
def evOk (s : NBState) (ev : IChangedArgs) : Prop :=
  ev.newValues.Nodup ∧
  ∀ m ∈ ev.newValues, m ∈ s.cells → m ∈ ev.oldValues

/-- Well-formedness of each event of a sequence, at its point of
delivery. -/
def stepsOk (st : CellToolbarTracker) (commands : List String) :
    NBState → List IChangedArgs → Prop
  | _, [] => True
  | s, ev :: evs =>
    evOk s ev ∧ stepsOk st commands (fullStep st commands s ev) evs

/-- `dispose` acting on the pair of the tracker state and the notebook's
panel widgets: the method body (lines 102-115) only mutates tracker fields
and disconnects signals; it disposes no widget, so the panel component is
returned unchanged. -/
def disposeWorld (w : CellToolbarTracker × List NbCell) :
    CellToolbarTracker × List NbCell :=
  (dispose w.1, w.2)

/-- Total number of live Toolbar Instances in the panel. -/
def countToolbars (panel : List NbCell) : Nat :=
  (panel.map (fun c => (c.widgets.filter Widget.isCellToolbar).length)).sum

/-- A tracker together with its host collaborators: the notebook state and
the command registry (the set of registered command identifiers). -/
structure World where
  tracker : CellToolbarTracker
  nb : NBState
  commands : List String
deriving DecidableEq, Repr

/-- The world right after `CellBarExtension.createNew` ran the tracker
constructor on a notebook panel. -/
def constructWorld (settings : Option Composite) (nb : NBState)
    (commands : List String) : World :=
  { tracker := constructTracker settings, nb := nb, commands := commands }

/-- The settings registry updating its `composite` before emitting its
`changed` signal: the tracker's `_settings` reference sees the new
value. -/
def setComposite (st : CellToolbarTracker) (comp : Composite) :
    CellToolbarTracker :=
  { st with _settings := some comp }

/-- The events the host can deliver to a constructed tracker, per spec
section 4.4: a cell-list change event is handled while the cell-list
signal is connected, a settings change (carrying the new composite) is
handled while the settings signal is connected, and `dispose` can be
called at any time.  Events are delivered one at a time to completion. -/
inductive Step : World → World → Prop
  | cellsChanged (w : World) (ev : IChangedArgs)
      (h : w.tracker.cellsConnected = true) :
      Step w { w with nb := fullStep w.tracker w.commands w.nb ev }
  | settingsChanged (w : World) (comp : Composite)
      (h : w.tracker.settingsConnected = true) :
      Step w { w with tracker :=
        _onSettingsChangedCore (setComposite w.tracker comp) comp }
  | disposed (w : World) :
      Step w { w with tracker := dispose w.tracker }

/-- Reflexive-transitive closure of `Step`. -/
inductive Reachable : World → World → Prop
  | refl (w : World) : Reachable w w
  | tail {w w' w'' : World} (h1 : Reachable w w') (h2 : Step w' w'') :
      Reachable w w''

/-- Every Toolbar Instance attached anywhere in the panel was constructed
with zero left-menu items. -/
def leftEmpty (panel : List NbCell) : Prop :=
  ∀ c ∈ panel, ∀ w ∈ c.widgets, w.toolbarLeftItems.getD [] = []

/-- A freshly rendered cell right after `_addToolbar` decorated it. -/
def decoratedCell (st : CellToolbarTracker) (commands : List String)
    (m : Nat) : NbCell :=
  { model := m,
    widgets := mkToolbar st m :: (Widget.content :: mkButtons commands) }

/-- Helper: `removeValue` decrements the count of the removed value. -/
theorem count_removeValue_self (l : List String) (t : String) :
    (removeValue l t).count t = l.count t - 1 :=
  List.count_erase_self t l

/-- Helper: `removeValue` of a different value keeps the count. -/
theorem count_removeValue_of_ne (l : List String) (t r : String)
    (h : t ≠ r) : (removeValue l r).count t = l.count t :=
  List.count_erase_of_ne h l

/-- Helper: folding `removeValue` over a list not containing `t` keeps the
count of `t`. -/
theorem count_foldl_removeValue_not_mem (rm : List String) (t : String)
    (h : t ∉ rm) :
    ∀ l : List String, (rm.foldl removeValue l).count t = l.count t := by
  induction rm with
  | nil => intro l; rfl
  | cons r rs ih =>
    intro l
    rw [List.foldl_cons]
    rw [ih (fun hm => h (List.mem_cons_of_mem r hm))]
    exact count_removeValue_of_ne l t r
      (fun e => h (e ▸ List.mem_cons_self r rs))
  
/-- Helper: folding `removeValue` over a duplicate-free list containing `t`
decrements the count of `t` by one. -/
theorem count_foldl_removeValue_mem (rm : List String) (t : String)
    (hnd : rm.Nodup) (hm : t ∈ rm) :
    ∀ l : List String, (rm.foldl removeValue l).count t = l.count t - 1 := by
  induction rm with
  | nil => cases hm
  | cons r rs ih =>
    intro l
    rw [List.foldl_cons]
    by_cases he : t = r
    · subst he
      rw [count_foldl_removeValue_not_mem rs t (List.nodup_cons.mp hnd).1]
      exact count_removeValue_self l t
    · have hrs : t ∈ rs := by
        rcases List.mem_cons.mp hm with h1 | h1
        · exact absurd h1 he
        · exact h1
      rw [ih (List.nodup_cons.mp hnd).2 hrs]
      rw [count_removeValue_of_ne l t r he]

/-- C4: for every settings change the shared tag collection is updated as a
true diff against `previousDefaultTags`: each tag of the new default-tag
list absent from the previous one is appended (its count goes up by one),
each tag of the previous list absent from the new one is removed by value
(its count goes down by one), and a tag in both lists or in neither is not
touched; the new list is recorded as the new `previousDefaultTags`. -/
theorem defaultTags_true_diff (allTags prev newTags : List String)
    (hp : prev.Nodup) (hn : newTags.Nodup) :
    (∀ t, t ∈ newTags → t ∉ prev →
      (updateTags allTags prev newTags).1.count t = allTags.count t + 1) ∧
    (∀ t, t ∈ prev → t ∉ newTags →
      (updateTags allTags prev newTags).1.count t = allTags.count t - 1) ∧
    (∀ t, (t ∈ prev ↔ t ∈ newTags) →
      (updateTags allTags prev newTags).1.count t = allTags.count t) ∧
    (updateTags allTags prev newTags).2 = newTags := by
  have h1 : (updateTags allTags prev newTags).1 =
      (prev.filter (fun tag => ! newTags.contains tag)).foldl removeValue
        (if (newTags.filter (fun tag => ! prev.contains tag)).length > 0
          then allTags ++ newTags.filter (fun tag => ! prev.contains tag)
          else allTags) := rfl
  have hcnt : ∀ t : String,
      (if (newTags.filter (fun tag => ! prev.contains tag)).length > 0
        then allTags ++ newTags.filter (fun tag => ! prev.contains tag)
        else allTags).count t
      = allTags.count t
        + (newTags.filter (fun tag => ! prev.contains tag)).count t := by
    intro t
    cases hh : newTags.filter (fun tag => ! prev.contains tag) with
    | nil => simp [hh]
    | cons a as => simp [hh, List.count_append]
  have hmemAdd : ∀ t : String,
      t ∈ newTags.filter (fun tag => ! prev.contains tag)
        ↔ (t ∈ newTags ∧ t ∉ prev) := by
    intro t; simp [List.mem_filter]
  have hmemRem : ∀ t : String,
      t ∈ prev.filter (fun tag => ! newTags.contains tag)
        ↔ (t ∈ prev ∧ t ∉ newTags) := by
    intro t; simp [List.mem_filter]
  refine ⟨?_, ?_, ?_, rfl⟩
  · intro t htn htp
    rw [h1,
      count_foldl_removeValue_not_mem _ t
        (fun hm => htp ((hmemRem t).mp hm).1),
      hcnt t,
      List.count_eq_one_of_mem (hn.filter _) ((hmemAdd t).mpr ⟨htn, htp⟩)]
  · intro t htp htn
    rw [h1,
      count_foldl_removeValue_mem _ t (hp.filter _)
        ((hmemRem t).mpr ⟨htp, htn⟩),
      hcnt t,
      List.count_eq_zero.mpr (fun hm => htn ((hmemAdd t).mp hm).1)]
    omega
  · intro t hiff
    by_cases hmem : t ∈ prev
    · rw [h1,
        count_foldl_removeValue_not_mem _ t
          (fun hm => ((hmemRem t).mp hm).2 (hiff.mp hmem)),
        hcnt t,
        List.count_eq_zero.mpr (fun hm => ((hmemAdd t).mp hm).2 hmem)]
      omega
    · rw [h1,
        count_foldl_removeValue_not_mem _ t
          (fun hm => hmem ((hmemRem t).mp hm).1),
        hcnt t,
        List.count_eq_zero.mpr
          (fun hm => (fun h2 => hmem (hiff.mpr h2)) ((hmemAdd t).mp hm).1)]
      omega

/-- Witness for `defaultTags_true_diff`: with previous default tags
`["a","b"]`, new default tags `["b","c"]` and tag collection `["a","b"]`,
exactly `"c"` is added, exactly `"a"` is removed and `"b"` is untouched. -/
theorem defaultTags_true_diff_witness :
    (updateTags ["a","b"] ["a","b"] ["b","c"]).1.count "c"
      = (["a","b"] : List String).count "c" + 1 ∧
    (updateTags ["a","b"] ["a","b"] ["b","c"]).1.count "a"
      = (["a","b"] : List String).count "a" - 1 ∧
    (updateTags ["a","b"] ["a","b"] ["b","c"]).1.count "b"
      = (["a","b"] : List String).count "b" := by
  have h := defaultTags_true_diff ["a","b"] ["a","b"] ["b","c"]
    (by decide) (by decide)
  exact ⟨h.1 "c" (by decide) (by decide),
    h.2.1 "a" (by decide) (by decide),
    h.2.2.1 "b" (by decide)⟩

/-- C2: decoding a settings change with `leftMenu` null yields exactly the
built-in four-item `DEFAULT_LEFT_MENU`, while an explicit empty `leftMenu`
list yields zero left-menu items, whatever the collection held before. -/
theorem leftMenu_null_vs_empty (cur : List ICellMenuItem) :
    updateLeftMenuItems cur none = DEFAULT_LEFT_MENU ∧
    DEFAULT_LEFT_MENU.length = 4 ∧
    updateLeftMenuItems cur (some []) = [] := by
  refine ⟨?_, rfl, ?_⟩ <;> cases cur <;> simp [updateLeftMenuItems]

/-- C3 counterexample: the code coalesces a null `rightMenu` to the empty
array (line 202), so null and `[]` produce identical, empty right-menu
contents — null does not select a distinct built-in default set. -/
theorem rightMenu_null_not_distinct :
    updateRightMenuItems [] none = updateRightMenuItems [] (some []) ∧
    updateRightMenuItems
      [{ command := "notebook:delete-cell", icon := "deleteIcon" }] none
      = [] :=
  ⟨rfl, rfl⟩

/-- C3 (amended): a null `rightMenu` is treated the same as an explicit
empty list — both yield zero right-menu items; in general the right-menu
collection ends up holding exactly the configured array with null coalesced
to the empty array. -/
theorem rightMenu_null_coalesced (cur : List ICellMenuItem)
    (items : Option (List ICellMenuItem)) :
    updateRightMenuItems cur none = [] ∧
    updateRightMenuItems cur (some []) = [] ∧
    updateRightMenuItems cur items = items.getD [] := by
  refine ⟨?_, ?_, ?_⟩
  · cases cur <;> simp [updateRightMenuItems]
  · cases cur <;> simp [updateRightMenuItems]
  · rcases items with _ | l
    · cases cur <;> simp [updateRightMenuItems]
    · cases l <;> cases cur <;> simp [updateRightMenuItems]

/-- C6: `dispose` is idempotent — after a first call on a tracker, a second
call returns without changing the tracker state or touching the panel. -/
theorem dispose_idempotent (w : CellToolbarTracker × List NbCell) :
    disposeWorld (disposeWorld w) = disposeWorld w := by
  by_cases h : w.1._isDisposed = true
  · simp [disposeWorld, dispose, h]
  · simp [disposeWorld, dispose, h]

/-- C8: when no rendered cell with an identical model exists in the
notebook's widget list, both the toolbar-add and the toolbar-remove
operation leave the panel unchanged — a silent no-op, no widget created or
destroyed. -/
theorem missing_cell_noop (st : CellToolbarTracker) (commands : List String)
    (m : Nat) (panel : List NbCell) (h : _getCell panel m = none) :
    _addToolbarP st commands m panel = panel ∧
    _removeToolbarP m panel = panel := by
  rw [_getCell, List.find?_eq_none] at h
  induction panel with
  | nil => exact ⟨rfl, rfl⟩
  | cons c rest ih =>
    obtain ⟨ha, hr⟩ := ih (fun x hx => h x (List.mem_cons_of_mem c hx))
    constructor
    · simp only [_addToolbarP]
      rw [if_neg (h c (List.mem_cons_self c rest))]
      rw [ha]
    · simp only [_removeToolbarP]
      rw [if_neg (h c (List.mem_cons_self c rest))]
      rw [hr]

/-- Witness for `missing_cell_noop` at a concrete panel and model. -/
theorem missing_cell_noop_witness :
    _addToolbarP (constructTracker none) [] 3
        [{ model := 0, widgets := [Widget.content] }]
      = [{ model := 0, widgets := [Widget.content] }] ∧
    _removeToolbarP 3 [{ model := 0, widgets := [Widget.content] }]
      = [{ model := 0, widgets := [Widget.content] }] :=
  missing_cell_noop (constructTracker none) [] 3
    [{ model := 0, widgets := [Widget.content] }] (by decide)

/-- C5 counterexample: disposing a tracker while a Toolbar Instance it
created is still attached reaches the disposed state, yet the Toolbar
Instance is still alive afterwards — `dispose` (lines 102-115) destroys no
Toolbar Instance. -/
theorem dispose_keeps_toolbars_cex :
    ((disposeWorld (constructTracker none,
      [{ model := 0, widgets :=
          [Widget.cellToolbar 0 [] [] [] 0 [CELL_BAR_CLASS],
           Widget.content] }])).1)._isDisposed = true ∧
    countToolbars ((disposeWorld (constructTracker none,
      [{ model := 0, widgets :=
          [Widget.cellToolbar 0 [] [] [] 0 [CELL_BAR_CLASS],
           Widget.content] }])).2) = 1 := by
  decide

/-- C5 (amended): disposing a not-yet-disposed tracker reaches the terminal
disposed state with both signal subscriptions released and the panel
reference cleared, but the Toolbar Instances attached to the notebook's
cells are not destroyed — the panel widget tree is left unchanged. -/
theorem dispose_reaches_disposed (w : CellToolbarTracker × List NbCell)
    (h1 : w.1._isDisposed = false)
    (h2 : w.1.settingsConnected = true → w.1._settings.isSome = true) :
    (disposeWorld w).1._isDisposed = true ∧
    (disposeWorld w).1.settingsConnected = false ∧
    (disposeWorld w).1.cellsConnected = false ∧
    (disposeWorld w).1._panelRef = false ∧
    (disposeWorld w).2 = w.2 := by
  have hsc : (if w.1._settings.isSome then false
      else w.1.settingsConnected) = false := by
    cases hs : w.1._settings.isSome with
    | true => simp
    | false =>
      simp only [Bool.false_eq_true, if_false]
      cases hc : w.1.settingsConnected with
      | true => exact absurd (h2 hc) (by simp [hs])
      | false => rfl
  refine ⟨?_, ?_, ?_, ?_, rfl⟩ <;>
    simp [disposeWorld, dispose, h1, hsc]

/-- Witness for `dispose_reaches_disposed` at a concrete tracker built with
a settings source and an empty panel. -/
theorem dispose_reaches_disposed_witness :
    (disposeWorld (constructTracker (some {}), ([] : List NbCell))).1._isDisposed = true ∧
    (disposeWorld (constructTracker (some {}), ([] : List NbCell))).1.settingsConnected = false ∧
    (disposeWorld (constructTracker (some {}), ([] : List NbCell))).1.cellsConnected = false ∧
    (disposeWorld (constructTracker (some {}), ([] : List NbCell))).1._panelRef = false ∧
    (disposeWorld (constructTracker (some {}), ([] : List NbCell))).2
      = (constructTracker (some {}), ([] : List NbCell)).2 :=
  dispose_reaches_disposed (constructTracker (some {}), ([] : List NbCell))
    (by decide) (by decide)

/-- Helper: no `PositionedButton` is a Toolbar Instance. -/
theorem mkButtons_filter_toolbar (commands : List String) :
    (mkButtons commands).filter Widget.isCellToolbar = [] := by
  refine List.filter_eq_nil_iff.mpr ?_
  intro w hw
  simp only [mkButtons] at hw
  obtain ⟨e, he, rfl⟩ := List.mem_map.mp hw
  simp [Widget.isCellToolbar]

/-- Helper: after `_removeToolbar` strips the bar-class widgets of a cell
whose Toolbar Instances all carry the bar class, no Toolbar Instance is
left. -/
theorem strip_no_toolbar (ws : List Widget)
    (hwf : ∀ w ∈ ws, w.isCellToolbar = true → w.isBar = true) :
    (ws.filter (fun w => ! w.isBar)).filter Widget.isCellToolbar = [] := by
  refine List.filter_eq_nil_iff.mpr ?_
  intro w hw
  obtain ⟨hws, hnb⟩ := List.mem_filter.mp hw
  intro hct
  have hb := hwf w hws hct
  simp [hb] at hnb

/-- Helper: a move event — the same model removed and then added — leaves
the moved cell with exactly one Toolbar Instance, which only happens
because all removals run before any addition. -/
theorem move_event_one_toolbar (st : CellToolbarTracker)
    (commands : List String) (m : Nat) (panel : List NbCell)
    (hm : ∃ c ∈ panel, c.model = m)
    (hwf : ∀ c ∈ panel, ∀ w ∈ c.widgets,
      w.isCellToolbar = true → w.isBar = true) :
    (_getCell (_addToolbarP st commands m (_removeToolbarP m panel)) m).map
      (fun c => (c.widgets.filter Widget.isCellToolbar).length) = some 1 := by
  induction panel with
  | nil => simp at hm
  | cons c rest ih =>
    obtain ⟨mo, ws⟩ := c
    by_cases hcm : mo = m
    · subst hcm
      have hstrip := strip_no_toolbar ws
        (hwf ⟨mo, ws⟩ (List.mem_cons_self _ _))
      rw [show _removeToolbarP mo (⟨mo, ws⟩ :: rest)
          = ⟨mo, ws.filter (fun w => ! w.isBar)⟩ :: rest from by
        simp [_removeToolbarP]]
      rw [show _addToolbarP st commands mo
            (⟨mo, ws.filter (fun w => ! w.isBar)⟩ :: rest)
          = ⟨mo, mkToolbar st mo ::
              (ws.filter (fun w => ! w.isBar) ++ mkButtons commands)⟩ :: rest
          from by simp [_addToolbarP]]
      rw [show _getCell (⟨mo, mkToolbar st mo ::
            (ws.filter (fun w => ! w.isBar) ++ mkButtons commands)⟩ :: rest) mo
          = some ⟨mo, mkToolbar st mo ::
              (ws.filter (fun w => ! w.isBar) ++ mkButtons commands)⟩
          from by simp [_getCell, List.find?]]
      simp [List.filter_cons, List.filter_append, hstrip,
        mkButtons_filter_toolbar, mkToolbar, Widget.isCellToolbar]
    · have hb : (mo == m) = false := by simp [hcm]
      rw [show _removeToolbarP m (⟨mo, ws⟩ :: rest)
          = ⟨mo, ws⟩ :: _removeToolbarP m rest from by
        simp [_removeToolbarP, hb]]
      rw [show _addToolbarP st commands m
            (⟨mo, ws⟩ :: _removeToolbarP m rest)
          = ⟨mo, ws⟩ :: _addToolbarP st commands m (_removeToolbarP m rest)
          from by simp [_addToolbarP, hb]]
      rw [show _getCell (⟨mo, ws⟩ ::
            _addToolbarP st commands m (_removeToolbarP m rest)) m
          = _getCell (_addToolbarP st commands m (_removeToolbarP m rest)) m
          from by simp [_getCell, List.find?, hb]]
      apply ih
      · obtain ⟨c', hc', hmod⟩ := hm
        rcases List.mem_cons.mp hc' with h1 | h1
        · exact absurd (by rw [h1] at hmod; exact hmod) hcm
        · exact ⟨c', h1, hmod⟩
      · intro c' hc' w hw hct
        exact hwf c' (List.mem_cons_of_mem _ hc') w hw hct

/-- C9: `updateConnectedCells` first strips the toolbar-class widgets of
every removed model's cell, and only afterwards constructs the new Toolbar
Instances (inserted first, followed by the positioned-button set) for the
added models: it equals the remove-all-then-add-all composition, and on a
move event — the same model removed and added — the moved cell ends with
exactly one Toolbar Instance (the opposite order would leave zero). -/
theorem updateConnectedCells_order (st : CellToolbarTracker)
    (commands : List String) (ev : IChangedArgs) (panel : List NbCell)
    (m : Nat) (hm : ∃ c ∈ panel, c.model = m)
    (hwf : ∀ c ∈ panel, ∀ w ∈ c.widgets,
      w.isCellToolbar = true → w.isBar = true) :
    updateConnectedCells st commands ev panel =
      ev.newValues.foldl (fun p k => _addToolbarP st commands k p)
        (ev.oldValues.foldl (fun p k => _removeToolbarP k p) panel) ∧
    (_getCell (updateConnectedCells st commands ⟨[m], [m]⟩ panel) m).map
      (fun c => (c.widgets.filter Widget.isCellToolbar).length) = some 1 :=
  ⟨rfl, move_event_one_toolbar st commands m panel hm hwf⟩

/-- Witness for `updateConnectedCells_order` on a one-cell panel whose cell
carries one Toolbar Instance, processing the move event that removes and
re-adds its model. -/
theorem updateConnectedCells_order_witness :
    updateConnectedCells (constructTracker none) [] ⟨[0], [0]⟩
        [⟨0, [Widget.cellToolbar 0 [] [] [] 0 [CELL_BAR_CLASS]]⟩] =
      ([0] : List Nat).foldl
        (fun p k => _addToolbarP (constructTracker none) [] k p)
        (([0] : List Nat).foldl (fun p k => _removeToolbarP k p)
          [⟨0, [Widget.cellToolbar 0 [] [] [] 0 [CELL_BAR_CLASS]]⟩]) ∧
    (_getCell (updateConnectedCells (constructTracker none) [] ⟨[0], [0]⟩
        [⟨0, [Widget.cellToolbar 0 [] [] [] 0 [CELL_BAR_CLASS]]⟩]) 0).map
      (fun c => (c.widgets.filter Widget.isCellToolbar).length) = some 1 :=
  updateConnectedCells_order (constructTracker none) [] ⟨[0], [0]⟩
    [⟨0, [Widget.cellToolbar 0 [] [] [] 0 [CELL_BAR_CLASS]]⟩] 0
    (by decide) (by decide)

/-- Helper: no `PositionedButton` is a Toolbar Instance (pointwise form). -/
theorem mkButtons_not_toolbar (commands : List String) :
    ∀ w ∈ mkButtons commands, w.isCellToolbar = false := by
  intro w hw
  simp only [mkButtons] at hw
  obtain ⟨e, he, rfl⟩ := List.mem_map.mp hw
  rfl

/-- Helper: `_addToolbar` leaves a prefix without a matching model alone. -/
theorem addP_append_of_no_match (st : CellToolbarTracker)
    (commands : List String) (m : Nat) (A B : List NbCell)
    (h : ∀ c ∈ A, c.model ≠ m) :
    _addToolbarP st commands m (A ++ B) = A ++ _addToolbarP st commands m B := by
  induction A with
  | nil => rfl
  | cons c cs ih =>
    have hb : (c.model == m) = false := by
      simp [h c (List.mem_cons_self c cs)]
    rw [List.cons_append]
    rw [show _addToolbarP st commands m (c :: (cs ++ B))
        = c :: _addToolbarP st commands m (cs ++ B) from by
      simp [_addToolbarP, hb]]
    rw [ih (fun c' hc' => h c' (List.mem_cons_of_mem c hc'))]
    rfl

/-- Helper: folding `_addToolbar` over models never matching a prefix acts
only on the suffix. -/
theorem foldl_addP_append (st : CellToolbarTracker) (commands : List String)
    (ms : List Nat) (A : List NbCell)
    (h : ∀ m ∈ ms, ∀ c ∈ A, c.model ≠ m) :
    ∀ B : List NbCell,
      ms.foldl (fun p m => _addToolbarP st commands m p) (A ++ B)
        = A ++ ms.foldl (fun p m => _addToolbarP st commands m p) B := by
  induction ms with
  | nil => intro B; rfl
  | cons m ms ih =>
    intro B
    rw [List.foldl_cons, List.foldl_cons]
    rw [addP_append_of_no_match st commands m A B
      (fun c hc => h m (List.mem_cons_self _ _) c hc)]
    exact ih (fun m' hm' c hc => h m' (List.mem_cons_of_mem _ hm') c hc) _

/-- Helper: folding `_addToolbar` over the distinct added models decorates
each fresh cell with exactly its own toolbar and buttons. -/
theorem foldl_addP_fresh (st : CellToolbarTracker) (commands : List String)
    (ms : List Nat) (hnd : ms.Nodup) :
    ms.foldl (fun p m => _addToolbarP st commands m p) (ms.map freshCell)
      = ms.map (decoratedCell st commands) := by
  induction ms with
  | nil => rfl
  | cons m ms ih =>
    rw [List.map_cons, List.map_cons, List.foldl_cons]
    rw [show _addToolbarP st commands m (freshCell m :: ms.map freshCell)
        = decoratedCell st commands m :: ms.map freshCell from by
      simp [_addToolbarP, freshCell, decoratedCell]]
    have hno : ∀ m' ∈ ms, ∀ c ∈ [decoratedCell st commands m],
        c.model ≠ m' := by
      intro m' hm' c hc
      rw [List.mem_singleton.mp hc]
      simp only [decoratedCell]
      intro he
      exact (List.nodup_cons.mp hnd).1 (he ▸ hm')
    calc ms.foldl (fun p k => _addToolbarP st commands k p)
          (decoratedCell st commands m :: ms.map freshCell)
        = ms.foldl (fun p k => _addToolbarP st commands k p)
            ([decoratedCell st commands m] ++ ms.map freshCell) := by
          rw [List.singleton_append]
      _ = [decoratedCell st commands m]
            ++ ms.foldl (fun p k => _addToolbarP st commands k p)
              (ms.map freshCell) :=
          foldl_addP_append st commands ms _ hno _
      _ = decoratedCell st commands m
            :: ms.map (decoratedCell st commands) := by
          rw [ih (List.nodup_cons.mp hnd).2]
          rfl

/-- Helper: `_removeToolbar` is the identity when every cell of the model
carries no bar-class widget. -/
theorem removeP_id_of_no_bar (m : Nat) (panel : List NbCell)
    (h : ∀ c ∈ panel, c.model = m → ∀ w ∈ c.widgets, w.isBar = false) :
    _removeToolbarP m panel = panel := by
  induction panel with
  | nil => rfl
  | cons c cs ih =>
    by_cases hcm : c.model = m
    · have hb : (c.model == m) = true := by simp [hcm]
      have hfw : c.widgets.filter (fun w => ! w.isBar) = c.widgets :=
        List.filter_eq_self.mpr (fun w hw => by
          simp [h c (List.mem_cons_self _ _) hcm w hw])
      rw [show _removeToolbarP m (c :: cs)
          = { c with widgets := c.widgets.filter (fun w => ! w.isBar) } :: cs
          from by simp [_removeToolbarP, hb]]
      rw [hfw]
    · have hb : (c.model == m) = false := by simp [hcm]
      rw [show _removeToolbarP m (c :: cs) = c :: _removeToolbarP m cs
          from by simp [_removeToolbarP, hb]]
      rw [ih (fun c' hc' => h c' (List.mem_cons_of_mem _ hc'))]

/-- Helper: folding identity removals is the identity. -/
theorem foldl_removeP_id (ms : List Nat) (panel : List NbCell)
    (h : ∀ m ∈ ms, _removeToolbarP m panel = panel) :
    ms.foldl (fun p m => _removeToolbarP m p) panel = panel := by
  induction ms with
  | nil => rfl
  | cons m ms ih =>
    rw [List.foldl_cons, h m (List.mem_cons_self _ _)]
    exact ih (fun m' hm' => h m' (List.mem_cons_of_mem _ hm'))

/-- Helper: mapping the model over a model-filtered panel is filtering the
mapped models. -/
theorem map_model_filter (panel : List NbCell) (old : List Nat) :
    (panel.filter (fun c => ! old.contains c.model)).map NbCell.model
      = (panel.map NbCell.model).filter (fun m => ! old.contains m) := by
  induction panel with
  | nil => rfl
  | cons c cs ih =>
    rw [List.map_cons, List.filter_cons, List.filter_cons]
    by_cases hm : (! old.contains c.model) = true
    · rw [if_pos hm, if_pos hm, List.map_cons, ih]
    · rw [if_neg hm, if_neg hm]
      exact ih

/-- Helper: one well-formed, fully processed cell-list change event
preserves the toolbar/cell one-to-one correspondence. -/
theorem fullStep_preserves_synced (st : CellToolbarTracker)
    (commands : List String) (s : NBState) (ev : IChangedArgs)
    (hs : Synced s) (hok : evOk s ev) :
    Synced (fullStep st commands s ev) := by
  obtain ⟨hmap, hnd, hone⟩ := hs
  obtain ⟨hndn, hfresh⟩ := hok
  have hremove : ∀ m ∈ ev.oldValues,
      _removeToolbarP m (hostStep s ev).panel = (hostStep s ev).panel := by
    intro m hm
    apply removeP_id_of_no_bar
    intro c hc hcm w hw
    rcases List.mem_append.mp hc with h1 | h1
    · obtain ⟨hcs, hnc⟩ := List.mem_filter.mp h1
      exfalso
      rw [hcm] at hnc
      simp [hm] at hnc
    · obtain ⟨m', hm', rfl⟩ := List.mem_map.mp h1
      simp only [freshCell, List.mem_singleton] at hw
      subst hw
      rfl
  have hAskip : ∀ m ∈ ev.newValues,
      ∀ c ∈ s.panel.filter (fun c => ! ev.oldValues.contains c.model),
        c.model ≠ m := by
    intro m hm c hc he
    obtain ⟨hcs, hnc⟩ := List.mem_filter.mp hc
    have hcm : c.model ∈ s.cells :=
      hmap ▸ List.mem_map_of_mem NbCell.model hcs
    rw [he] at hcm hnc
    have hmo := hfresh m hm hcm
    simp [hmo] at hnc
  have hpanel : (fullStep st commands s ev).panel
      = s.panel.filter (fun c => ! ev.oldValues.contains c.model)
        ++ ev.newValues.map (decoratedCell st commands) := by
    have h0 : (fullStep st commands s ev).panel
        = ev.newValues.foldl (fun p m => _addToolbarP st commands m p)
          (ev.oldValues.foldl (fun p m => _removeToolbarP m p)
            (hostStep s ev).panel) := rfl
    rw [h0, foldl_removeP_id _ _ hremove]
    rw [show (hostStep s ev).panel
        = s.panel.filter (fun c => ! ev.oldValues.contains c.model)
          ++ ev.newValues.map freshCell from rfl]
    rw [foldl_addP_append st commands ev.newValues _ hAskip _]
    rw [foldl_addP_fresh st commands ev.newValues hndn]
  refine ⟨?_, ?_, ?_⟩
  · rw [hpanel]
    rw [show (fullStep st commands s ev).cells
        = s.cells.filter (fun m => ! ev.oldValues.contains m)
          ++ ev.newValues from rfl]
    rw [List.map_append, map_model_filter, hmap]
    congr 1
    rw [List.map_map]
    have hco : NbCell.model ∘ decoratedCell st commands = fun m => m := by
      funext m
      rfl
    rw [hco, List.map_id']
  · rw [show (fullStep st commands s ev).cells
        = s.cells.filter (fun m => ! ev.oldValues.contains m)
          ++ ev.newValues from rfl]
    refine (hnd.filter _).append hndn ?_
    intro m hm1 hm2
    obtain ⟨hmc, hnc⟩ := List.mem_filter.mp hm1
    have hmo := hfresh m hm2 hmc
    simp [hmo] at hnc
  · intro c hc
    rw [hpanel] at hc
    rcases List.mem_append.mp hc with h1 | h1
    · exact hone c (List.mem_filter.mp h1).1
    · obtain ⟨m, hm, rfl⟩ := List.mem_map.mp h1
      constructor
      · simp [decoratedCell, List.filter_cons, mkToolbar,
          Widget.isCellToolbar, mkButtons_filter_toolbar]
      · intro w hw hct
        simp only [decoratedCell, List.mem_cons] at hw
        rcases hw with rfl | rfl | hbw
        · simp [mkToolbar, Widget.toolbarModel, decoratedCell]
        · simp [Widget.isCellToolbar] at hct
        · rw [mkButtons_not_toolbar commands w hbw] at hct
          cases hct

/-- C1: for every sequence of well-formed cell-list change events delivered
to the tracker, after each event is fully processed by
`updateConnectedCells` the live Toolbar Instances are in one-to-one
correspondence with the live cells: the rendered cells are exactly the
live cells, without duplicates, each carrying exactly one Toolbar Instance
built for its own model — no duplicate toolbars and no toolbar attached to
a removed cell. -/
theorem toolbar_cell_correspondence (st : CellToolbarTracker)
    (commands : List String) (evs : List IChangedArgs) (s : NBState)
    (hs : Synced s) (hok : stepsOk st commands s evs) :
    ∀ n, Synced (processAll st commands s (evs.take n)) := by
  induction evs generalizing s with
  | nil =>
    intro n
    simpa [processAll] using hs
  | cons ev evs ih =>
    intro n
    cases n with
    | zero => simpa [processAll] using hs
    | succ k =>
      rw [List.take_succ_cons]
      rw [show processAll st commands s (ev :: evs.take k)
          = processAll st commands (fullStep st commands s ev)
            (evs.take k) from rfl]
      exact ih (fullStep st commands s ev)
        (fullStep_preserves_synced st commands s ev hs hok.1) hok.2 k

/-- Witness for `toolbar_cell_correspondence`: starting from an empty
synchronized notebook, after the event adding cell 5 the correspondence
holds. -/
theorem toolbar_cell_correspondence_witness :
    Synced (processAll (constructTracker none) []
      { cells := [], panel := [] }
      (([⟨[], [5]⟩] : List IChangedArgs).take 1)) :=
  toolbar_cell_correspondence (constructTracker none) []
    [⟨[], [5]⟩] { cells := [], panel := [] }
    (by refine ⟨rfl, List.nodup_nil, ?_⟩; intro c hc; cases hc)
    ⟨⟨by decide, by decide⟩, trivial⟩ 1

/-- Helper: `dispose` never touches the settings reference. -/
theorem dispose_preserves_settings (st : CellToolbarTracker) :
    (dispose st)._settings = st._settings := by
  by_cases hd : st._isDisposed = true <;> simp [dispose, hd]

/-- Helper: `dispose` never touches the left-menu collection. -/
theorem dispose_preserves_leftMenu (st : CellToolbarTracker) :
    (dispose st)._leftMenuItems = st._leftMenuItems := by
  by_cases hd : st._isDisposed = true <;> simp [dispose, hd]

/-- Helper: if the settings signal is still connected after `dispose`, it
was connected before. -/
theorem dispose_connected_mono (st : CellToolbarTracker)
    (h : (dispose st).settingsConnected = true) :
    st.settingsConnected = true := by
  by_cases hd : st._isDisposed = true
  · simpa [dispose, hd] using h
  · simp only [dispose, hd, if_false, Bool.false_eq_true] at h
    cases hs : st._settings.isSome with
    | false => rw [hs] at h; simpa using h
    | true => rw [hs] at h; simp at h

/-- Helper: `dispose` never connects the settings signal. -/
theorem dispose_connected_false (st : CellToolbarTracker)
    (h : st.settingsConnected = false) :
    (dispose st).settingsConnected = false := by
  by_cases hd : st._isDisposed = true
  · simpa [dispose, hd] using h
  · by_cases hs : st._settings.isSome = true <;> simp [dispose, hd, hs, h]

/-- Helper: one step preserves "a connected settings signal implies a
non-null settings reference". -/
theorem step_settings_inv {w w' : World} (hs : Step w w')
    (h : w.tracker.settingsConnected = true →
      w.tracker._settings.isSome = true) :
    w'.tracker.settingsConnected = true →
      w'.tracker._settings.isSome = true := by
  cases hs with
  | cellsChanged ev hc => exact h
  | settingsChanged comp hc =>
    intro _
    rfl
  | disposed =>
    intro hcon
    have hc' : (dispose w.tracker).settingsConnected = true := hcon
    show (dispose w.tracker)._settings.isSome = true
    rw [dispose_preserves_settings]
    exact h (dispose_connected_mono w.tracker hc')

/-- Helper: along every reachable trace, a connected settings signal
implies a non-null settings reference. -/
theorem reachable_settings_inv (w0 w : World) (hr : Reachable w0 w)
    (h0 : w0.tracker.settingsConnected = true →
      w0.tracker._settings.isSome = true) :
    w.tracker.settingsConnected = true →
      w.tracker._settings.isSome = true := by
  induction hr with
  | refl => exact h0
  | tail h1 h2 ih => exact step_settings_inv h2 ih

/-- C10: in every state reachable from a constructed tracker, whenever the
settings-change handler can be invoked — it runs in the constructor only
under the non-null guard, and through the signal only while the settings
signal is connected — the tracker's settings reference is non-null, so the
unguarded dereference of the settings composite in `_onSettingsChanged`
succeeds. -/
theorem settings_handler_safe (settings : Option Composite) (nb : NBState)
    (commands : List String) (w : World)
    (hr : Reachable (constructWorld settings nb commands) w)
    (hc : w.tracker.settingsConnected = true) :
    (_onSettingsChanged w.tracker).isSome = true := by
  have h0 : (constructWorld settings nb commands).tracker.settingsConnected
        = true →
      (constructWorld settings nb commands).tracker._settings.isSome
        = true := by
    cases settings <;>
      simp [constructWorld, constructTracker, initialFields,
        _onSettingsChangedCore]
  have hinv := reachable_settings_inv _ w hr h0 hc
  cases hset : w.tracker._settings with
  | none => rw [hset] at hinv; cases hinv
  | some comp => simp [_onSettingsChanged, hset]

/-- Witness for `settings_handler_safe`: the constructed world itself, with
a present settings source. -/
theorem settings_handler_safe_witness :
    (_onSettingsChanged
      (constructWorld (some {}) { cells := [], panel := [] } []).tracker).isSome
      = true :=
  settings_handler_safe (some {}) { cells := [], panel := [] } [] _
    (Reachable.refl _) (by decide)

/-- Helper: no `PositionedButton` carries left-menu items. -/
theorem mkButtons_no_leftItems (commands : List String) :
    ∀ w ∈ mkButtons commands, w.toolbarLeftItems = none := by
  intro w hw
  simp only [mkButtons] at hw
  obtain ⟨e, he, rfl⟩ := List.mem_map.mp hw
  rfl

/-- Helper: `_removeToolbar` only discards widgets and so preserves
`leftEmpty`. -/
theorem removeP_preserves_leftEmpty (m : Nat) (panel : List NbCell)
    (h : leftEmpty panel) : leftEmpty (_removeToolbarP m panel) := by
  induction panel with
  | nil => exact h
  | cons c cs ih =>
    by_cases hb : (c.model == m) = true
    · rw [show _removeToolbarP m (c :: cs)
          = { c with widgets := c.widgets.filter (fun w => ! w.isBar) } :: cs
          from by simp [_removeToolbarP, hb]]
      intro c' hc' w hw
      rcases List.mem_cons.mp hc' with rfl | h1
      · exact h c (List.mem_cons_self _ _) w (List.mem_filter.mp hw).1
      · exact h c' (List.mem_cons_of_mem _ h1) w hw
    · rw [show _removeToolbarP m (c :: cs) = c :: _removeToolbarP m cs
          from by simp [_removeToolbarP, hb]]
      intro c' hc' w hw
      rcases List.mem_cons.mp hc' with rfl | h1
      · exact h _ (List.mem_cons_self _ _) w hw
      · exact ih (fun c'' hc'' w' hw' =>
          h c'' (List.mem_cons_of_mem _ hc'') w' hw') c' h1 w hw

/-- Helper: when the tracker's left-menu collection is empty, `_addToolbar`
creates only toolbars with zero left-menu items and so preserves
`leftEmpty`. -/
theorem addP_preserves_leftEmpty (st : CellToolbarTracker)
    (commands : List String) (m : Nat) (panel : List NbCell)
    (hl : st._leftMenuItems = []) (h : leftEmpty panel) :
    leftEmpty (_addToolbarP st commands m panel) := by
  induction panel with
  | nil => exact h
  | cons c cs ih =>
    by_cases hb : (c.model == m) = true
    · rw [show _addToolbarP st commands m (c :: cs)
          = { c with widgets :=
              mkToolbar st m :: (c.widgets ++ mkButtons commands) } :: cs
          from by simp [_addToolbarP, hb]]
      intro c' hc' w hw
      rcases List.mem_cons.mp hc' with rfl | h1
      · simp only [List.mem_cons, List.mem_append] at hw
        rcases hw with rfl | hw1 | hw2
        · simp [mkToolbar, Widget.toolbarLeftItems, hl]
        · exact h c (List.mem_cons_self _ _) w hw1
        · rw [mkButtons_no_leftItems commands w hw2]
          rfl
      · exact h c' (List.mem_cons_of_mem _ h1) w hw
    · rw [show _addToolbarP st commands m (c :: cs)
          = c :: _addToolbarP st commands m cs
          from by simp [_addToolbarP, hb]]
      intro c' hc' w hw
      rcases List.mem_cons.mp hc' with rfl | h1
      · exact h _ (List.mem_cons_self _ _) w hw
      · exact ih (fun c'' hc'' w' hw' =>
          h c'' (List.mem_cons_of_mem _ hc'') w' hw') c' h1 w hw

/-- Helper: a fully processed cell-list change event preserves `leftEmpty`
when the tracker's left-menu collection is empty. -/
theorem fullStep_preserves_leftEmpty (st : CellToolbarTracker)
    (commands : List String) (s : NBState) (ev : IChangedArgs)
    (hl : st._leftMenuItems = []) (hp : leftEmpty s.panel) :
    leftEmpty (fullStep st commands s ev).panel := by
  have hhost : leftEmpty (hostStep s ev).panel := by
    intro c hc w hw
    rcases List.mem_append.mp hc with h1 | h1
    · exact hp c (List.mem_filter.mp h1).1 w hw
    · obtain ⟨m', hm', rfl⟩ := List.mem_map.mp h1
      simp only [freshCell, List.mem_singleton] at hw
      subst hw
      rfl
  have hrem : leftEmpty
      (ev.oldValues.foldl (fun p m => _removeToolbarP m p)
        (hostStep s ev).panel) := by
    have hgen : ∀ (ms : List Nat) (p : List NbCell), leftEmpty p →
        leftEmpty (ms.foldl (fun p m => _removeToolbarP m p) p) := by
      intro ms
      induction ms with
      | nil => intro p hp'; exact hp'
      | cons m ms ih =>
        intro p hp'
        exact ih _ (removeP_preserves_leftEmpty m p hp')
    exact hgen _ _ hhost
  have hgen2 : ∀ (ms : List Nat) (p : List NbCell), leftEmpty p →
      leftEmpty (ms.foldl (fun p m => _addToolbarP st commands m p) p) := by
    intro ms
    induction ms with
    | nil => intro p hp'; exact hp'
    | cons m ms ih =>
      intro p hp'
      exact ih _ (addP_preserves_leftEmpty st commands m p hl hp')
  exact hgen2 _ _ hrem

/-- C7 counterexample: with a null settings source the constructor never
pushes `DEFAULT_LEFT_MENU`, so the Toolbar Instance created for a freshly
added cell is built with zero left-menu items, not with the built-in
default four-item left menu. -/
theorem null_settings_empty_left_menu_cex :
    ((fullStep (constructTracker none) [] { cells := [], panel := [] }
        ⟨[], [0]⟩).panel.map
      (fun c => c.widgets.map Widget.toolbarLeftItems))
      = [[some [], none]] ∧
    DEFAULT_LEFT_MENU ≠ [] := by
  decide

/-- C7 (amended): a tracker constructed with a null settings source never
has the settings signal connected — so no settings-driven reconciliation
ever occurs — and its left-menu collection stays in its initial empty
state; consequently (when the notebook starts without Toolbar Instances)
every Toolbar Instance ever created shows zero left-menu items, not the
built-in default left menu. -/
theorem null_settings_defaults (nb : NBState) (commands : List String)
    (w : World) (hr : Reachable (constructWorld none nb commands) w)
    (h0 : leftEmpty nb.panel) :
    w.tracker.settingsConnected = false ∧
    w.tracker._leftMenuItems = [] ∧
    leftEmpty w.nb.panel := by
  induction hr with
  | refl => exact ⟨rfl, rfl, h0⟩
  | tail h1 h2 ih =>
    obtain ⟨ihc, ihl, ihp⟩ := ih
    cases h2 with
    | cellsChanged ev hc =>
      exact ⟨ihc, ihl,
        fullStep_preserves_leftEmpty _ _ _ ev ihl ihp⟩
    | settingsChanged comp hc =>
      rw [ihc] at hc
      cases hc
    | disposed =>
      refine ⟨?_, ?_, ihp⟩
      · exact dispose_connected_false _ ihc
      · rw [dispose_preserves_leftMenu]
        exact ihl

/-- Witness for `null_settings_defaults`: the constructed world itself on
an empty notebook. -/
theorem null_settings_defaults_witness :
    (constructWorld none { cells := [], panel := [] }
      []).tracker.settingsConnected = false ∧
    (constructWorld none { cells := [], panel := [] }
      []).tracker._leftMenuItems = [] ∧
    leftEmpty (constructWorld none { cells := [], panel := [] } []).nb.panel :=
  null_settings_defaults { cells := [], panel := [] } [] _
    (Reachable.refl _) (fun c hc => absurd hc (List.not_mem_nil c))
